import Mathlib

set_option maxRecDepth 1000000

/-!
# Verification of the `session` package (dazzling)

A shallow embedding of the repository's session-token signer
(`NewSessionID`, `GenerateRandomHMAC`, `DecodeSessionID`, `ValidateID`)
and its redis-backed store (`RedisStore.Save` / `Get` / `Delete`,
`getRedisKey`), together with theorems settling the specification's
claims about them.

Conventions of the embedding:
* Go byte slices are `List Nat` with every element `< 256`.
* Go strings handled as byte slices are also `List Nat`; strings handled
  as text (base64 tokens) are `List Char`.
* 32-bit machine arithmetic is `Nat` arithmetic reduced by `w32`
  (`% 2 ^ 32`).
* The Go standard library primitives the package calls
  (`crypto/sha256`, `crypto/hmac`, `encoding/base64`) are embedded as
  executable Lean functions implementing the same algorithms
  (FIPS 180-4, RFC 2104, RFC 4648 URL alphabet with padding).
* Fallible Go calls return `Option`/`Except`; a Go runtime panic is the
  `panic` constructor of `GoResult`.
* The package-level variable `generatedSID` is threaded explicitly as a
  `SessionGlobals` record; the entropy `crypto/rand` delivers is an
  explicit argument.
-/

/-! ## SHA-256 (embedding of `crypto/sha256`, FIPS 180-4) -/

/-- Truncation to a 32-bit word. -/
def w32 (n : Nat) : Nat := n % 4294967296

/-- Right rotation of a 32-bit word by `n` bits. -/
def rotr (n x : Nat) : Nat := w32 ((x >>> n) ||| (x <<< (32 - n)))

/-- SHA-256 `Ch(e,f,g) = (e ∧ f) ⊕ (¬e ∧ g)`. -/
def shaCh (e f g : Nat) : Nat := (e &&& f) ^^^ ((e ^^^ 4294967295) &&& g)

/-- SHA-256 `Maj(a,b,c)`. -/
def shaMaj (a b c : Nat) : Nat := (a &&& b) ^^^ (a &&& c) ^^^ (b &&& c)

/-- SHA-256 `Σ₀`. -/
def bigSigma0 (x : Nat) : Nat := rotr 2 x ^^^ rotr 13 x ^^^ rotr 22 x

/-- SHA-256 `Σ₁`. -/
def bigSigma1 (x : Nat) : Nat := rotr 6 x ^^^ rotr 11 x ^^^ rotr 25 x

/-- SHA-256 `σ₀`. -/
def smallSigma0 (x : Nat) : Nat := rotr 7 x ^^^ rotr 18 x ^^^ (x >>> 3)

/-- SHA-256 `σ₁`. -/
def smallSigma1 (x : Nat) : Nat := rotr 17 x ^^^ rotr 19 x ^^^ (x >>> 10)

/-- The 64 SHA-256 round constants. -/
def shaK : List Nat :=
  [1116352408, 1899447441, 3049323471, 3921009573, 961987163,
   1508970993, 2453635748, 2870763221, 3624381080, 310598401,
   607225278, 1426881987, 1925078388, 2162078206, 2614888103,
   3248222580, 3835390401, 4022224774, 264347078, 604807628,
   770255983, 1249150122, 1555081692, 1996064986, 2554220882,
   2821834349, 2952996808, 3210313671, 3336571891, 3584528711,
   113926993, 338241895, 666307205, 773529912, 1294757372,
   1396182291, 1695183700, 1986661051, 2177026350, 2456956037,
   2730485921, 2820302411, 3259730800, 3345764771, 3516065817,
   3600352804, 4094571909, 275423344, 430227734, 506948616,
   659060556, 883997877, 958139571, 1322822218, 1537002063,
   1747873779, 1955562222, 2024104815, 2227730452, 2361852424,
   2428436474, 2756734187, 3204031479, 3329325298]

/-- The eight 32-bit words of SHA-256 working state. -/
structure Hash8 where
  a : Nat
  b : Nat
  c : Nat
  d : Nat
  e : Nat
  f : Nat
  g : Nat
  h : Nat
deriving DecidableEq

/-- SHA-256 initial hash value. -/
def initHash : Hash8 :=
  ⟨1779033703, 3144134277, 1013904242, 2773480762,
   1359893119, 2600822924, 528734635, 1541459225⟩

/-- One SHA-256 round; `kw` is the pair of round constant and schedule word. -/
def shaRound (s : Hash8) (kw : Nat × Nat) : Hash8 :=
  let t1 := w32 (s.h + bigSigma1 s.e + shaCh s.e s.f s.g + kw.1 + kw.2)
  let t2 := w32 (bigSigma0 s.a + shaMaj s.a s.b s.c)
  ⟨w32 (t1 + t2), s.a, s.b, s.c, w32 (s.d + t1), s.e, s.f, s.g⟩

/-- Extend the 16 message words of a block to the 64-word schedule. -/
def extendSched (ws : List Nat) : List Nat :=
  (List.range 48).foldl
    (fun acc _ =>
      acc ++ [w32 (smallSigma1 (acc.getD (acc.length - 2) 0) +
        acc.getD (acc.length - 7) 0 +
        smallSigma0 (acc.getD (acc.length - 15) 0) +
        acc.getD (acc.length - 16) 0)])
    ws

/-- Group bytes into big-endian 32-bit words (4 bytes per word). -/
def bytesToWords : List Nat → List Nat
  | b1 :: b2 :: b3 :: b4 :: rest =>
      (b1 * 16777216 + b2 * 65536 + b3 * 256 + b4) :: bytesToWords rest
  | _ => []

/-- Compress one 512-bit block (given as 16 words) into the running state. -/
def compressBlock (s : Hash8) (ws : List Nat) : Hash8 :=
  let sched := extendSched ws
  let t := (shaK.zip sched).foldl shaRound s
  ⟨w32 (s.a + t.a), w32 (s.b + t.b), w32 (s.c + t.c), w32 (s.d + t.d),
   w32 (s.e + t.e), w32 (s.f + t.f), w32 (s.g + t.g), w32 (s.h + t.h)⟩

/-- Fold the compression function over a padded message, 64 bytes at a
time. `fuel` is consumed once per block; structural recursion on it keeps
the function kernel-evaluable, and any fuel at least the byte count (so
at least the block count) yields the full fold. -/
def sha256BlocksAux : Nat → Hash8 → List Nat → Hash8
  | 0, s, _ => s
  | _ + 1, s, [] => s
  | fuel + 1, s, b :: rest =>
      sha256BlocksAux fuel
        (compressBlock s (bytesToWords (List.take 64 (b :: rest))))
        (List.drop 63 rest)

/-- Fold the compression function over a whole padded message. -/
def sha256Blocks (s : Hash8) (msg : List Nat) : Hash8 :=
  sha256BlocksAux msg.length s msg

/-- The 8-byte big-endian encoding of the 64-bit message bit length. -/
def u64Bytes (n : Nat) : List Nat :=
  [n / 72057594037927936 % 256, n / 281474976710656 % 256,
   n / 1099511627776 % 256, n / 4294967296 % 256,
   n / 16777216 % 256, n / 65536 % 256, n / 256 % 256, n % 256]

/-- SHA-256 padding: `0x80`, zeros to 56 mod 64, then the bit length. -/
def padMessage (msg : List Nat) : List Nat :=
  msg ++ 128 :: List.replicate ((119 - msg.length % 64) % 64) 0 ++
    u64Bytes (msg.length * 8 % 18446744073709551616)

/-- Big-endian bytes of a 32-bit word. -/
def wordBytes (x : Nat) : List Nat :=
  [x / 16777216 % 256, x / 65536 % 256, x / 256 % 256, x % 256]

/-- SHA-256 of a byte slice, as its 32-byte digest. -/
def sha256 (msg : List Nat) : List Nat :=
  let s := sha256Blocks initHash (padMessage msg)
  wordBytes s.a ++ wordBytes s.b ++ wordBytes s.c ++ wordBytes s.d ++
    wordBytes s.e ++ wordBytes s.f ++ wordBytes s.g ++ wordBytes s.h

/-! ## HMAC-SHA256 (embedding of `crypto/hmac`, RFC 2104) -/

/-- Normalize the HMAC key: hash it if longer than the 64-byte block,
then pad with zeros to exactly 64 bytes. -/
def hmacKeyNorm (key : List Nat) : List Nat :=
  let k := if 64 < key.length then sha256 key else key
  k ++ List.replicate (64 - k.length) 0

/-- HMAC-SHA256 of `msg` under `key`:
`H((k ⊕ opad) ++ H((k ⊕ ipad) ++ msg))`. -/
def hmacSHA256 (key msg : List Nat) : List Nat :=
  let k := hmacKeyNorm key
  sha256 (k.map (fun b => b ^^^ 92) ++ sha256 (k.map (fun b => b ^^^ 54) ++ msg))

/-! ## Base64 URL encoding with padding
(embedding of `encoding/base64.URLEncoding`, RFC 4648 §5) -/

/-- The URL-safe base64 alphabet. -/
def b64Alphabet : List Char :=
  "ABCDEFGHIJKLMNOPQRSTUVWXYZabcdefghijklmnopqrstuvwxyz0123456789-_".toList

/-- Character for a 6-bit group. -/
def b64Char (n : Nat) : Char := b64Alphabet.getD n 'A'

/-- Alphabet position of a character; `none` when it is not in the
alphabet (such as `=` or `!`). -/
def b64Index (c : Char) : Option Nat := b64Alphabet.findIdx? (· = c)

/-- Base64-URL encode a byte slice, 3 bytes to 4 characters, padding the
final group with `=`. -/
def encodeB64 : List Nat → List Char
  | [] => []
  | [b1] => [b64Char (b1 / 4), b64Char (b1 % 4 * 16), '=', '=']
  | [b1, b2] =>
      [b64Char (b1 / 4), b64Char (b1 % 4 * 16 + b2 / 16), b64Char (b2 % 16 * 4), '=']
  | b1 :: b2 :: b3 :: rest =>
      b64Char (b1 / 4) :: b64Char (b1 % 4 * 16 + b2 / 16) ::
        b64Char (b2 % 16 * 4 + b3 / 64) :: b64Char (b3 % 64) :: encodeB64 rest

/-- Base64-URL decode. Fails (`none`) on characters outside the alphabet,
on input whose length is not a multiple of 4, and on padding that is not
final — the inputs Go's `DecodeString` rejects with `CorruptInputError`. -/
def decodeB64 : List Char → Option (List Nat)
  | [] => some []
  | c1 :: c2 :: c3 :: c4 :: rest =>
      match b64Index c1, b64Index c2 with
      | some n1, some n2 =>
        if c3 = '=' then
          if c4 = '=' ∧ rest = [] then some [n1 * 4 + n2 / 16] else none
        else
          match b64Index c3 with
          | some n3 =>
            if c4 = '=' then
              if rest = [] then some [n1 * 4 + n2 / 16, n2 % 16 * 16 + n3 / 4]
              else none
            else
              match b64Index c4 with
              | some n4 =>
                  (decodeB64 rest).map
                    (fun l => (n1 * 4 + n2 / 16) :: (n2 % 16 * 16 + n3 / 4) ::
                      (n3 % 4 * 64 + n4) :: l)
              | none => none
          | none => none
      | _, _ => none
  | _ => none

/-! ## The signer (embedding of `sessionid.go`) -/

/-- Result of a Go call: a value, an error (identified by the message the
source constructs), or a runtime panic. -/
inductive GoResult (α : Type) where
  | ok : α → GoResult α
  | err : String → GoResult α
  | panic : GoResult α
deriving DecidableEq

/-- Constant `idLength` is the length of the ID portion. -/
def idLength : Nat := 32

/-- Constant `InvalidSessionID` represents an empty, invalid session ID. -/
def InvalidSessionID : List Char := []

/-- The package-level mutable state: `var generatedSID = ""`, the SID for
the current session. -/
structure SessionGlobals where
  generatedSID : List Char
deriving DecidableEq

/-- The initial value of `generatedSID` (the empty string). -/
def sessionGlobalsInit : SessionGlobals := ⟨[]⟩

/-- Function `GenerateRandomHMAC` from the source: it allocates a fresh
`bytes.Buffer`, takes its (empty) contents `b`, writes `b` into an
HMAC-SHA256 keyed by `signingKey`, and returns the sum — i.e. the
HMAC-SHA256 digest of the **empty** message under `signingKey`. -/
def GenerateRandomHMAC (signingKey : List Nat) : List Nat :=
  hmacSHA256 signingKey []

/-- Function `NewSessionID` from the source, on the path where `crypto/rand`
succeeded and delivered `randByte` (the `idLength` random bytes):
empty key errors; otherwise the token is the base64-URL encoding of
`randByte ++ GenerateRandomHMAC signingKey`, and the package-level
`generatedSID` is overwritten with the token. -/
def NewSessionID (signingKey randByte : List Nat) (g : SessionGlobals) :
    GoResult (List Char) × SessionGlobals :=
  if signingKey.length = 0 then (.err "not signing key", g)
  else
    let combined := randByte ++ GenerateRandomHMAC signingKey
    let sid := encodeB64 combined
    (.ok sid, ⟨sid⟩)

/-- Function `DecodeSessionID` from the source: base64-URL decode, propagating the
decode error. -/
def DecodeSessionID (sid : List Char) : Option (List Nat) := decodeB64 sid

/-- Function `ValidateID` from the source: base64 decode the token (decode failure
is returned as the error), take `decodedID[idLength:]` — which in Go
**panics** when the decoded slice is shorter than `idLength` — and
compare it with `GenerateRandomHMAC signingKey` via `hmac.Equal`;
on a match return the whole token, otherwise the error
`"hmac not equal"`. -/
def ValidateID (id : List Char) (signingKey : List Nat) : GoResult (List Char) :=
  match DecodeSessionID id with
  | none => .err "base64 decode error"
  | some decodedID =>
      if decodedID.length < idLength then .panic
      else if decodedID.drop idLength = GenerateRandomHMAC signingKey then .ok id
      else .err "hmac not equal"

/-! ## The redis store (embedding of `redisStore.go`, `sessionError.go`) -/

/-- The error values the store paths can surface, by identity:
`errStateNotFound` is the package's distinguished `ErrStateNotFound`;
`redisNil` is go-redis's `redis.Nil` (key absent); `redisUnavailable`
is a transport error to the backing service; `jsonError` is a
marshalling/unmarshalling failure. -/
inductive StoreErr where
  | errStateNotFound : StoreErr
  | redisNil : StoreErr
  | redisUnavailable : StoreErr
  | jsonError : StoreErr
deriving DecidableEq

/-- The observable state of the backing redis service: whether it can be
reached, and its key-value data (an association list on keys). Expiry
durations are not modelled (no claim depends on real time). -/
structure RedisState where
  reachable : Bool
  data : List (List Char × List Char)
deriving DecidableEq

/-- Value stored under `k`, if any. -/
def redisLookup (r : RedisState) (k : List Char) : Option (List Char) :=
  (r.data.find? (fun p => p.1 == k)).map (·.2)

/-- Store `v` under `k`, replacing any previous binding. -/
def redisSet (r : RedisState) (k v : List Char) : RedisState :=
  ⟨r.reachable, (k, v) :: r.data.filter (fun p => ¬ (p.1 == k))⟩

/-- The combined `pipeline.Exec` / `pipe.Result` of the source's `Get`:
a transport error when the service is unreachable, go-redis's
`redis.Nil` error when the key is absent, and the stored value
otherwise. -/
def redisPipeGet (r : RedisState) (k : List Char) : Except StoreErr (List Char) :=
  if ¬ r.reachable then .error .redisUnavailable
  else
    match redisLookup r k with
    | none => .error .redisNil
    | some v => .ok v

/-- Function `getRedisKey` from the source: despite its comment promising a
`"sid:"` namespacing marker, the body returns `string(sid)` unchanged. -/
def getRedisKey (sid : List Char) : List Char := sid

/-- An abstract `encoding/json` codec for the session-state type `σ`:
`marshal` is `json.Marshal` (`none` on the unsupported-type error),
`unmarshal` is `json.Unmarshal` into a value of `σ`. -/
structure JsonCodec (σ : Type) where
  marshal : σ → Option (List Char)
  unmarshal : List Char → Option σ

/-- Method `RedisStore.Save` from the source: marshal the state (returning the
marshal error), then call `Client.Set` — whose result the source
**ignores** — and return `nil`. When the service is unreachable the
write is lost but `nil` is still returned. -/
def RedisStore.Save {σ : Type} (codec : JsonCodec σ) (r : RedisState)
    (sid : List Char) (sessionState : σ) : Except StoreErr Unit × RedisState :=
  match codec.marshal sessionState with
  | none => (.error .jsonError, r)
  | some j =>
      if r.reachable then (.ok (), redisSet r (getRedisKey sid) j)
      else (.ok (), r)

/-- Method `RedisStore.Get` from the source: run the pipeline (`Get` + `Expire`),
returning **verbatim** any error `Exec`/`Result` produced — including
`redis.Nil` when no entry exists — then unmarshal the payload,
returning the unmarshal error on failure. -/
def RedisStore.Get {σ : Type} (codec : JsonCodec σ) (r : RedisState)
    (sid : List Char) : Except StoreErr σ :=
  match redisPipeGet r (getRedisKey sid) with
  | .error e => .error e
  | .ok s =>
      match codec.unmarshal s with
      | none => .error .jsonError
      | some st => .ok st

/-- Method `RedisStore.Delete` from the source: `Client.Del`, result ignored,
always returns `nil`. -/
def RedisStore.Delete (r : RedisState) (sid : List Char) :
    Except StoreErr Unit × RedisState :=
  if r.reachable then
    (.ok (), ⟨r.reachable, r.data.filter (fun p => ¬ (p.1 == getRedisKey sid))⟩)
  else (.ok (), r)

/-! ## Concrete fixtures for counterexamples and witnesses -/

/-- A concrete signing key: the bytes of the string `"key"`. -/
def tKey : List Nat := [107, 101, 121]

/-- A concrete 32-byte random component: the bytes `0 .. 31`. -/
def tRand : List Nat := List.range 32

/-- Flip the lowest-order bit of byte `i` of a byte slice. -/
def flipBit (bs : List Nat) (i : Nat) : List Nat := bs.set i (bs.getD i 0 ^^^ 1)

/-- The decoded form of the token `NewSessionID` mints from `tKey` with
entropy `tRand`. -/
def tMinted : List Nat := tRand ++ GenerateRandomHMAC tKey

/-- Payload `tMinted` with a single bit flipped inside its random component
(bit 0 of byte 0). -/
def tTampered : List Nat := flipBit tMinted 0

/-- A decoded payload of length 33 — decodable but not of the
`idLength + 32` shape a well-formed token has. -/
def wrongLenBytes : List Nat := List.replicate 33 7

/-- A trivial JSON codec for a unit-typed session state. -/
def unitCodec : JsonCodec Unit := ⟨fun _ => some [], fun _ => some ()⟩

/-! ## Digest shape lemmas -/

/-- Every byte of a serialized word is below 256. -/
theorem wordBytes_lt (x : Nat) : ∀ b ∈ wordBytes x, b < 256 := by
  intro b hb
  simp [wordBytes] at hb
  rcases hb with h | h | h | h <;> omega

/-- A SHA-256 digest is 32 bytes long, whatever the message. -/
theorem sha256_length (m : List Nat) : (sha256 m).length = 32 := by
  simp [sha256, wordBytes]

/-- Every byte of a SHA-256 digest is below 256. -/
theorem sha256_bytes_lt (m : List Nat) : ∀ b ∈ sha256 m, b < 256 := by
  intro b hb
  simp only [sha256, List.mem_append] at hb
  rcases hb with ((((((h | h) | h) | h) | h) | h) | h) | h <;> exact wordBytes_lt _ b h

/-- An HMAC-SHA256 digest is 32 bytes long. -/
theorem hmacSHA256_length (key msg : List Nat) : (hmacSHA256 key msg).length = 32 :=
  sha256_length _

/-- Every byte of an HMAC-SHA256 digest is below 256. -/
theorem hmacSHA256_bytes_lt (key msg : List Nat) :
    ∀ b ∈ hmacSHA256 key msg, b < 256 :=
  sha256_bytes_lt _

/-! ## Base64 round trip -/

/-- Looking up the character of any 6-bit group recovers the group. -/
theorem b64Index_b64Char_fin : ∀ n : Fin 64, b64Index (b64Char n.val) = some n.val := by
  decide

/-- Function `b64Index` inverts `b64Char` on 6-bit groups. -/
theorem b64Index_b64Char (n : Nat) (h : n < 64) : b64Index (b64Char n) = some n :=
  b64Index_b64Char_fin ⟨n, h⟩

/-- The padding character is not in the alphabet. -/
theorem b64Index_pad : b64Index '=' = none := by decide

/-- No alphabet character is the padding character. -/
theorem b64Char_ne_pad (n : Nat) (h : n < 64) : b64Char n ≠ '=' := by
  intro he
  have h1 := b64Index_b64Char n h
  rw [he, b64Index_pad] at h1
  exact Option.noConfusion h1

/-- Decoding inverts encoding on genuine byte slices (all entries `< 256`),
exactly as Go's `DecodeString ∘ EncodeToString` does. -/
theorem decodeB64_encodeB64 (bs : List Nat) (hb : ∀ b ∈ bs, b < 256) :
    decodeB64 (encodeB64 bs) = some bs := by
  induction bs using encodeB64.induct with
  | case1 => rfl
  | case2 b1 =>
      have h1 : b1 < 256 := hb b1 (by simp)
      have e1 := b64Index_b64Char (b1 / 4) (by omega)
      have e2 := b64Index_b64Char (b1 % 4 * 16) (by omega)
      simp [encodeB64, decodeB64, e1, e2]
      omega
  | case3 b1 b2 =>
      have h1 : b1 < 256 := hb b1 (by simp)
      have h2 : b2 < 256 := hb b2 (by simp)
      have e1 := b64Index_b64Char (b1 / 4) (by omega)
      have e2 := b64Index_b64Char (b1 % 4 * 16 + b2 / 16) (by omega)
      have e3 := b64Index_b64Char (b2 % 16 * 4) (by omega)
      have n3 := b64Char_ne_pad (b2 % 16 * 4) (by omega)
      simp [encodeB64, decodeB64, e1, e2, e3, n3]
      constructor <;> omega
  | case4 b1 b2 b3 rest ih =>
      have h1 : b1 < 256 := hb b1 (by simp)
      have h2 : b2 < 256 := hb b2 (by simp)
      have h3 : b3 < 256 := hb b3 (by simp)
      have hrest : ∀ b ∈ rest, b < 256 := fun b hbr => hb b (by simp [hbr])
      have e1 := b64Index_b64Char (b1 / 4) (by omega)
      have e2 := b64Index_b64Char (b1 % 4 * 16 + b2 / 16) (by omega)
      have e3 := b64Index_b64Char (b2 % 16 * 4 + b3 / 64) (by omega)
      have e4 := b64Index_b64Char (b3 % 64) (by omega)
      have n3 := b64Char_ne_pad (b2 % 16 * 4 + b3 / 64) (by omega)
      have n4 := b64Char_ne_pad (b3 % 64) (by omega)
      simp [encodeB64, decodeB64, e1, e2, e3, e4, n3, n4, ih hrest]
      refine ⟨by omega, by omega, by omega⟩

/-! ## Signer behaviour, generically -/

/-- On a non-empty key (and delivered entropy), `NewSessionID` returns the
base64-URL encoding of the random bytes followed by
`GenerateRandomHMAC signingKey`, and overwrites `generatedSID` with it. -/
theorem NewSessionID_ok (signingKey randByte : List Nat) (g : SessionGlobals)
    (hk : signingKey.length ≠ 0) :
    NewSessionID signingKey randByte g =
      (.ok (encodeB64 (randByte ++ GenerateRandomHMAC signingKey)),
        ⟨encodeB64 (randByte ++ GenerateRandomHMAC signingKey)⟩) := by
  simp [NewSessionID, hk]

/-- Function `ValidateID` accepts any token whose decoded form is 32 arbitrary bytes
followed by `GenerateRandomHMAC signingKey`, returning the token itself. -/
theorem ValidateID_hmac_ok (signingKey r : List Nat) (hr : r.length = 32)
    (hb : ∀ b ∈ r, b < 256) :
    ValidateID (encodeB64 (r ++ GenerateRandomHMAC signingKey)) signingKey =
      .ok (encodeB64 (r ++ GenerateRandomHMAC signingKey)) := by
  have hbytes : ∀ b ∈ r ++ GenerateRandomHMAC signingKey, b < 256 := by
    intro b hbm
    rcases List.mem_append.mp hbm with h | h
    · exact hb b h
    · exact hmacSHA256_bytes_lt signingKey [] b h
  have hdec := decodeB64_encodeB64 _ hbytes
  have hlen : (r ++ GenerateRandomHMAC signingKey).length = 64 := by
    rw [List.length_append, hr, GenerateRandomHMAC, hmacSHA256_length]
  have hdrop : (r ++ GenerateRandomHMAC signingKey).drop 32 =
      GenerateRandomHMAC signingKey := by
    rw [← hr, List.drop_left]
  simp [ValidateID, DecodeSessionID, hdec, hlen, hdrop, idLength]

/-! ## The claims -/

/-- C3: for every non-empty signing key and every 32-byte sequence `r` —
also ones `NewSessionID` never produced — the token
`base64url(r ++ HMAC-SHA256(key, ""))` validates: the digest `ValidateID`
recomputes ignores the token's random component, so any well-shaped token
whose trailing 32 bytes equal the HMAC of the empty message validates. -/
theorem C3_forged_random_accepted (signingKey r : List Nat)
    (_hk : signingKey.length ≠ 0) (hr : r.length = 32) (hb : ∀ b ∈ r, b < 256) :
    ValidateID (encodeB64 (r ++ hmacSHA256 signingKey [])) signingKey =
      .ok (encodeB64 (r ++ hmacSHA256 signingKey [])) :=
  ValidateID_hmac_ok signingKey r hr hb

/-- C3 witness: the concrete forged token over `tKey` with random half
`tRand` — which `NewSessionID` was never called on — is accepted. -/
theorem C3_forged_random_accepted_witness :
    ValidateID (encodeB64 (tRand ++ hmacSHA256 tKey [])) tKey =
      .ok (encodeB64 (tRand ++ hmacSHA256 tKey [])) :=
  C3_forged_random_accepted tKey tRand (by decide) (by decide) (by decide)

/-- C6: minting with a non-empty key and then validating under the same key
succeeds and preserves the token text. -/
theorem C6_mint_validate_roundtrip (signingKey randByte : List Nat)
    (g : SessionGlobals) (hk : signingKey.length ≠ 0)
    (hr : randByte.length = 32) (hb : ∀ b ∈ randByte, b < 256) :
    ∃ tok : List Char, (NewSessionID signingKey randByte g).1 = .ok tok ∧
      ValidateID tok signingKey = .ok tok := by
  refine ⟨encodeB64 (randByte ++ GenerateRandomHMAC signingKey), ?_, ?_⟩
  · rw [NewSessionID_ok signingKey randByte g hk]
  · exact ValidateID_hmac_ok signingKey randByte hr hb

/-- C6 witness: the round trip at the concrete key `tKey` and entropy
`tRand`, starting from the initial package globals. -/
theorem C6_mint_validate_roundtrip_witness :
    ∃ tok : List Char, (NewSessionID tKey tRand sessionGlobalsInit).1 = .ok tok ∧
      ValidateID tok tKey = .ok tok :=
  C6_mint_validate_roundtrip tKey tRand sessionGlobalsInit
    (by decide) (by decide) (by decide)

/-- C4: refuted as stated — `ValidateID` is not total. On any token whose
decoded form is shorter than `idLength` bytes (such as `"AA=="`, which
decodes to one byte), the slice `decodedID[idLength:]` panics, for every
signing key. -/
theorem C4_short_token_panics (signingKey : List Nat) :
    ValidateID "AA==".toList signingKey = .panic := rfl

/-- C1: refuted as stated — the signature half of a minted token is the
HMAC-SHA256 digest of the **empty** message, not of the 32 random bytes:
at key `"key"` and entropy bytes `0..31` the minted token encodes
`tRand ++ hmacSHA256 tKey []`, and that trailing digest differs from
`hmacSHA256 tKey tRand`, the digest the claim requires. -/
theorem C1_signature_is_empty_message_hmac :
    (NewSessionID tKey tRand sessionGlobalsInit).1 =
      .ok (encodeB64 (tRand ++ hmacSHA256 tKey [])) ∧
    hmacSHA256 tKey [] ≠ hmacSHA256 tKey tRand := by
  refine ⟨rfl, ?_⟩
  decide

/-- C2: refuted as stated — flipping a single bit inside the random
component of a minted token and re-encoding it does **not** make
validation fail: the token minted from `tKey`/`tRand` decodes to
`tMinted`, `tTampered` is `tMinted` with bit 0 of byte 0 flipped, and
`ValidateID` still accepts the re-encoded tampered token. -/
theorem C2_random_bitflip_still_accepted :
    (NewSessionID tKey tRand sessionGlobalsInit).1 = .ok (encodeB64 tMinted) ∧
    decodeB64 (encodeB64 tMinted) = some tMinted ∧
    tTampered ≠ tMinted ∧
    ValidateID (encodeB64 tTampered) tKey = .ok (encodeB64 tTampered) := by
  refine ⟨rfl, by decide, by decide, by decide⟩

/-- C5: partially refuted — a token that is not base64 text is rejected
with the decode error, but a token of wrong decoded length is **not**
rejected with a malformed-token error: `"AA=="` (1 decoded byte) panics,
and a decodable 33-byte payload falls through to the signature
comparison and fails with `"hmac not equal"` instead. -/
theorem C5_wrong_length_not_malformed :
    ValidateID "not-base64!!".toList tKey = .err "base64 decode error" ∧
    ValidateID "AA==".toList tKey = .panic ∧
    ValidateID (encodeB64 wrongLenBytes) tKey = .err "hmac not equal" := by
  refine ⟨rfl, rfl, by decide⟩

/-- C7: refuted as stated — `NewSessionID` does write process-wide mutable
state: starting from the initial globals, minting at `tKey`/`tRand`
changes the package-level `generatedSID` from `""` to the minted token. -/
theorem C7_mint_writes_global :
    (NewSessionID tKey tRand sessionGlobalsInit).2 ≠ sessionGlobalsInit ∧
    (NewSessionID tKey tRand sessionGlobalsInit).2 =
      ⟨encodeB64 (tRand ++ GenerateRandomHMAC tKey)⟩ := by
  refine ⟨by decide, rfl⟩

/-- C8: refuted as stated — when the backing service is reachable but
holds no entry for the SID, `RedisStore.Get` surfaces go-redis's
`redis.Nil` verbatim, which is not the package's distinguished
`ErrStateNotFound` value. -/
theorem C8_missing_entry_not_statenotfound {σ : Type} (codec : JsonCodec σ)
    (r : RedisState) (sid : List Char) (hre : r.reachable = true)
    (habs : redisLookup r (getRedisKey sid) = none) :
    RedisStore.Get codec r sid = .error .redisNil ∧
      StoreErr.redisNil ≠ StoreErr.errStateNotFound := by
  refine ⟨?_, by decide⟩
  simp [RedisStore.Get, redisPipeGet, hre, habs]

/-- C8 witness: a reachable empty store at SID `"a"`. -/
theorem C8_missing_entry_not_statenotfound_witness :
    RedisStore.Get unitCodec ⟨true, []⟩ ['a'] = .error .redisNil ∧
      StoreErr.redisNil ≠ StoreErr.errStateNotFound :=
  C8_missing_entry_not_statenotfound unitCodec ⟨true, []⟩ ['a'] rfl rfl

/-- C9: refuted as stated — `RedisStore.Save` ignores the result of
`Client.Set`: when the backing service is unreachable (and marshalling
succeeded), `Save` still returns `nil` and the store is unchanged, so
the write is silently dropped. -/
theorem C9_lost_write_returns_nil {σ : Type} (codec : JsonCodec σ)
    (r : RedisState) (sid : List Char) (st : σ) (j : List Char)
    (hun : r.reachable = false) (hm : codec.marshal st = some j) :
    RedisStore.Save codec r sid st = (.ok (), r) := by
  simp [RedisStore.Save, hm, hun]

/-- C9 witness: an unreachable store, unit state. -/
theorem C9_lost_write_returns_nil_witness :
    RedisStore.Save unitCodec ⟨false, []⟩ ['a'] () = (.ok (), (⟨false, []⟩ : RedisState)) :=
  C9_lost_write_returns_nil unitCodec ⟨false, []⟩ ['a'] () [] rfl rfl

/-- C10: refuted as stated — `getRedisKey` applies no namespacing marker:
the backing key for SID `"ab"` is exactly `"ab"`, not `"sid:ab"` as the
function's own comment promises. -/
theorem C10_no_namespace_marker :
    getRedisKey "ab".toList = "ab".toList ∧
      getRedisKey "ab".toList ≠ "sid:ab".toList :=
  ⟨rfl, by decide⟩
